import Mathlib

/-!
Verification development for the website-extracter backend
(`src/backend/hello.py`).

The Python source is shallowly embedded: pure helpers become Lean
functions; calls to external collaborators (`requests.get`, the Gemini
model, the Playwright renderer, BeautifulSoup's parser) become explicit
capability parameters, as the specification itself treats them as opaque
collaborators.  Machine-level details (HTTP transport, threads) are
abstracted: the thread pool that fetches stylesheets is modelled by a
fold in submission order, which is multiset-equivalent to the
nondeterministic completion order of `concurrent.futures.as_completed`.
-/

namespace WebsiteExtracter

/-! ## Basic string and list helpers (Python semantics) -/

/-- `startsList p l` is true when `p` is a leading run of `l`. -/
def startsList : List Char → List Char → Bool
  | [], _ => true
  | _ :: _, [] => false
  | p :: ps, c :: cs => p = c && startsList ps cs

/-- Model of Python `s.startswith(pre)`. -/
def pyStartsWith (s pre : String) : Bool := startsList pre.toList s.toList

/-- `containsList pat l` models Python `pat in l` (substring search). -/
def containsList (pat : List Char) : List Char → Bool
  | [] => pat.isEmpty
  | c :: cs => startsList pat (c :: cs) || containsList pat cs

/-- Model of Python `pat in s` for strings. -/
def containsSub (s pat : String) : Bool := containsList pat.toList s.toList

/-- Python whitespace characters recognised by `str.strip()` and `\s`
(ASCII portion; the concrete programme data never contains the extra
Unicode spaces Python would also strip). -/
def isPyWs (c : Char) : Bool :=
  c = ' ' || c = '\t' || c = '\n' || c = '\r' || c = '\x0b' || c = '\x0c'

/-- Model of Python `s.strip()`. -/
def pyStrip (s : String) : String :=
  ⟨((s.toList.dropWhile isPyWs).reverse.dropWhile isPyWs).reverse⟩

/-- Model of Python `sep.join(parts)` for a list of strings. -/
def pyJoin (sep : String) : List String → String
  | [] => ""
  | [a] => a
  | a :: b :: rest => a ++ sep ++ pyJoin sep (b :: rest)

/-- ASCII lowercase of one character (the programme's data is ASCII). -/
def charLower (c : Char) : Char :=
  if 'A' ≤ c && c ≤ 'Z' then Char.ofNat (c.toNat + 32) else c

/-- Model of Python `s.lower()` on ASCII data. -/
def pyLower (s : String) : String := ⟨s.toList.map charLower⟩

/-- Split a character list at every character satisfying `p`
(Python `str.split(sep)` semantics: empty pieces are kept). -/
def splitOnPred (p : Char → Bool) : List Char → List (List Char)
  | [] => [[]]
  | c :: cs =>
    let r := splitOnPred p cs
    if p c then [] :: r
    else
      match r with
      | h :: t2 => (c :: h) :: t2
      | [] => [[c]]

/-- Model of Python `s.split(sep)` for a one-character separator. -/
def pySplitChar (s : String) (sep : Char) : List String :=
  (splitOnPred (fun c => c = sep) s.toList).map (fun l => (⟨l⟩ : String))

/-- Lookup in an insertion-ordered association list (a Python `dict`). -/
def dictGet (store : List (String × String)) (k : String) : Option String :=
  (store.find? (fun p => p.1 = k)).map (fun p => p.2)

/-- Assignment `d[k] = v` on an insertion-ordered association list:
overwrite in place when the key exists, append otherwise. -/
def dictSet (store : List (String × String)) (k v : String) : List (String × String) :=
  if (store.find? (fun p => p.1 = k)).isSome then
    store.map (fun p => if p.1 = k then (k, v) else p)
  else
    store ++ [(k, v)]

/-- First-occurrence deduplication; models `list(set(xs))` up to the
unspecified iteration order of a CPython `set`. -/
def dedupFirst (l : List String) : List String :=
  l.foldl (fun acc x => if acc.contains x then acc else acc ++ [x]) []

/-! ## Model of `urllib.parse` (CPython) restricted to what the source uses:
`urlparse`, `urljoin`, and the derived `get_base_url`.  IPv6 bracket
validation (which raises `ValueError` in CPython) is not modelled; every
theorem quantifying over references therefore excludes brackets. -/

def usesRelative : List String :=
  ["", "ftp", "http", "gopher", "nntp", "imap", "wais", "file", "https",
   "shttp", "mms", "prospero", "rtsp", "rtspu", "sftp", "svn", "svn+ssh",
   "ws", "wss"]

def usesNetloc : List String :=
  ["", "ftp", "http", "gopher", "nntp", "telnet", "imap", "wais", "file",
   "mms", "https", "shttp", "snews", "prospero", "rtsp", "rtspu", "rsync",
   "svn", "svn+ssh", "sftp", "nfs", "git", "git+ssh", "ws", "wss",
   "itms-services"]

def usesParams : List String :=
  ["", "ftp", "hdl", "prospero", "http", "imap", "https", "shttp", "rtsp",
   "rtspu", "sip", "sips", "mms", "sftp", "tel"]

/-- C0 control characters and space (WHATWG), stripped from the left of a
URL by CPython `urlsplit`. -/
def isC0OrSpace (c : Char) : Bool := c.toNat ≤ 0x20

/-- Characters CPython removes anywhere in a URL before parsing. -/
def isUnsafeUrlChar (c : Char) : Bool := c = '\t' || c = '\r' || c = '\n'

/-- Valid characters of a URL scheme after the first. -/
def isSchemeChar (c : Char) : Bool :=
  c.isAlpha || c.isDigit || c = '+' || c = '-' || c = '.'

/-- Split a character list at the first occurrence of `sep` (the
separator is dropped); `none` when absent.  Models `str.split(sep, 1)`
guarded by `sep in s`. -/
def splitAtChar (sep : Char) : List Char → Option (List Char × List Char)
  | [] => none
  | c :: cs =>
    if c = sep then some ([], cs)
    else
      match splitAtChar sep cs with
      | some (a, b) => some (c :: a, b)
      | none => none

/-- Scheme detection of CPython `urlsplit`: a leading `name:` where
`name` is nonempty, begins with a letter and uses only scheme
characters; the scheme is lowercased. -/
def schemeSplit (l : List Char) : Option (String × List Char) :=
  match splitAtChar ':' l with
  | none => none
  | some (pre, post) =>
    match pre with
    | [] => none
    | p :: ps =>
      if p.isAlpha && (p :: ps).all isSchemeChar then
        some (pyLower ⟨p :: ps⟩, post)
      else none

/-- A character that ends the netloc portion of a URL. -/
def isNetlocEnd (c : Char) : Bool := c = '/' || c = '?' || c = '#'

structure SplitResult where
  scheme : String
  netloc : String
  path : String
  query : String
  fragment : String
deriving DecidableEq, Repr

/-- Model of CPython `urllib.parse.urlsplit(url, defaultScheme)` with
`allow_fragments=True` (the only mode the source uses). -/
def urlsplit (url0 defaultScheme : String) : SplitResult :=
  let l0 := (url0.toList.dropWhile isC0OrSpace).filter (fun c => !isUnsafeUrlChar c)
  let sp := schemeSplit l0
  let scheme := match sp with | some (sc, _) => sc | none => defaultScheme
  let rest := match sp with | some (_, r) => r | none => l0
  let netloc := match rest with
    | '/' :: '/' :: r => r.takeWhile (fun c => !isNetlocEnd c)
    | _ => []
  let rest2 := match rest with
    | '/' :: '/' :: r => r.dropWhile (fun c => !isNetlocEnd c)
    | _ => rest
  let rest3 := match splitAtChar '#' rest2 with
    | some (a, _) => a
    | none => rest2
  let fragment := match splitAtChar '#' rest2 with
    | some (_, b) => b
    | none => []
  let path := match splitAtChar '?' rest3 with
    | some (a, _) => a
    | none => rest3
  let query := match splitAtChar '?' rest3 with
    | some (_, b) => b
    | none => []
  ⟨scheme, ⟨netloc⟩, ⟨path⟩, ⟨query⟩, ⟨fragment⟩⟩

/-- CPython `_splitparams`: split `;params` off the last path segment. -/
def splitparams (p : List Char) : List Char × List Char :=
  if p.contains '/' then
    let rev := p.reverse
    let lastSeg := (rev.takeWhile (fun c => c ≠ '/')).reverse
    let pre := (rev.dropWhile (fun c => c ≠ '/')).reverse
    match splitAtChar ';' lastSeg with
    | some (a, b) => (pre ++ a, b)
    | none => (p, [])
  else
    match splitAtChar ';' p with
    | some (a, b) => (a, b)
    | none => (p, [])

structure ParseResult where
  scheme : String
  netloc : String
  path : String
  params : String
  query : String
  fragment : String
deriving DecidableEq, Repr

/-- Model of CPython `urllib.parse.urlparse(url, defaultScheme)`. -/
def urlparse (url defaultScheme : String) : ParseResult :=
  let s := urlsplit url defaultScheme
  if usesParams.contains s.scheme && s.path.toList.contains ';' then
    let pp := splitparams s.path.toList
    ⟨s.scheme, s.netloc, ⟨pp.1⟩, ⟨pp.2⟩, s.query, s.fragment⟩
  else
    ⟨s.scheme, s.netloc, s.path, "", s.query, s.fragment⟩

/-- Model of CPython `urllib.parse.urlunsplit`. -/
def urlunsplit (scheme netloc path query fragment : String) : String :=
  let url1 :=
    if netloc ≠ "" || (path ≠ "" && pyStartsWith path "//") then
      "//" ++ netloc ++ (if path ≠ "" && !pyStartsWith path "/" then "/" ++ path else path)
    else path
  let url2 := if scheme ≠ "" then scheme ++ ":" ++ url1 else url1
  let url3 := if query ≠ "" then url2 ++ "?" ++ query else url2
  if fragment ≠ "" then url3 ++ "#" ++ fragment else url3

/-- Model of CPython `urllib.parse.urlunparse`. -/
def urlunparse (r : ParseResult) : String :=
  urlunsplit r.scheme r.netloc
    (if r.params ≠ "" then r.path ++ ";" ++ r.params else r.path)
    r.query r.fragment

/-- `segments[1:-1] = filter(None, segments[1:-1])` from `urljoin`. -/
def filterMiddle (l : List String) : List String :=
  match l with
  | [] => []
  | [a] => [a]
  | a :: rest => a :: (rest.dropLast.filter (fun s => s ≠ "")) ++ [rest.getLastD ""]

/-- The dot-segment resolution loop of CPython `urljoin`. -/
def resolveSegs (segs : List String) : List String :=
  segs.foldl
    (fun acc seg =>
      if seg = ".." then acc.dropLast
      else if seg = "." then acc
      else acc ++ [seg]) []

/-- Model of CPython `urllib.parse.urljoin(base, url)`. -/
def urljoin (base url : String) : String :=
  if base = "" then url
  else if url = "" then base
  else
    let b := urlparse base ""
    let u := urlparse url b.scheme
    if u.scheme ≠ b.scheme || !usesRelative.contains u.scheme then url
    else if usesNetloc.contains u.scheme && u.netloc ≠ "" then
      urlunparse ⟨u.scheme, u.netloc, u.path, u.params, u.query, u.fragment⟩
    else
      let netloc1 := if usesNetloc.contains u.scheme then b.netloc else u.netloc
      if u.path = "" && u.params = "" then
        urlunparse ⟨u.scheme, netloc1, b.path, b.params,
          (if u.query = "" then b.query else u.query), u.fragment⟩
      else
        let baseParts0 := pySplitChar b.path '/'
        let baseParts := if baseParts0.getLastD "" ≠ "" then baseParts0.dropLast else baseParts0
        let segments :=
          if pyStartsWith u.path "/" then pySplitChar u.path '/'
          else filterMiddle (baseParts ++ pySplitChar u.path '/')
        let resolved0 := resolveSegs segments
        let resolved :=
          if segments.getLastD "" = "." || segments.getLastD "" = ".." then resolved0 ++ [""]
          else resolved0
        let joined := pyJoin "/" resolved
        urlunparse ⟨u.scheme, netloc1, (if joined = "" then "/" else joined),
          u.params, u.query, u.fragment⟩

/-- `get_base_url` (hello.py:65-68). -/
def get_base_url (url : String) : String :=
  let parsed := urlparse url ""
  parsed.scheme ++ "://" ++ parsed.netloc

/-- The recurring absolutization idiom of the source
(hello.py:100-101, 208-210, 222-224, 233-235):
`if not ref.startswith(('http://', 'https://')): ref = urljoin(base, ref)`. -/
def absolutizeHttp (ref base : String) : String :=
  if pyStartsWith ref "http://" || pyStartsWith ref "https://" then ref
  else urljoin base ref

/-! ## HTTP fetch capability (`requests.get`) -/

/-- Result of the outbound `requests.get` collaborator: a status code
with body text, or a raised transport exception. -/
inductive FetchRes where
  | ok (status : Nat) (text : String)
  | exn
deriving DecidableEq, Repr

/-- `fetch_url` (hello.py:111-122): GET with `raise_for_status`, any
exception (transport error or 4xx/5xx status) yields `None`. -/
def fetch_url (fetch : String → FetchRes) (url : String) : Option String :=
  match fetch url with
  | .ok status t => if 400 ≤ status && status < 600 then none else some t
  | .exn => none

/-! ## CSS extraction (hello.py:70-109)

`re.findall(r'@import\s+url\(['"]?([^'"]+)['"]?\)', s)` is modelled by a
character-level scanner with the same greedy-with-backtracking
semantics: at a match position the `[^'"]+` group is maximal, then gives
characters back until `['"]?\)` can match. -/

def isQuoteChar (c : Char) : Bool := c = Char.ofNat 39 || c = '"'

/-- Index of the last `)` in a run of non-quote characters. -/
def lastParenIdx (run : List Char) : Option Nat :=
  match run.reverse.findIdx? (fun c => c = ')') with
  | some i => some (run.length - 1 - i)
  | none => none

/-- Try to match `@import\s+url\(['"]?([^'"]+)['"]?\)` at the head of
`l`; on success return the captured group and the remainder after the
match. -/
def matchImportAt (l : List Char) : Option (String × List Char) :=
  if startsList "@import".toList l then
    let r1 := l.drop 7
    let ws := r1.takeWhile isPyWs
    if ws.isEmpty then none
    else
      let r2 := r1.dropWhile isPyWs
      if startsList "url(".toList r2 then
        let r3 := r2.drop 4
        let r4 := match r3 with
          | c :: cs => if isQuoteChar c then cs else r3
          | [] => r3
        let run := r4.takeWhile (fun c => !isQuoteChar c)
        let after := r4.drop run.length
        if run.isEmpty then none
        else
          -- greedy: first try the full run followed by a quote and a paren
          match after with
          | q :: ')' :: tail =>
            if isQuoteChar q then some (⟨run⟩, tail)
            else none
          | _ =>
            match lastParenIdx run with
            | some j => if 1 ≤ j then some (⟨run.take j⟩, run.drop (j + 1) ++ after) else none
            | none => none
      else none
  else none

def findImportsGo : Nat → List Char → List String
  | 0, _ => []
  | _ + 1, [] => []
  | fuel + 1, c :: cs =>
    match matchImportAt (c :: cs) with
    | some (cap, rest) => cap :: findImportsGo fuel rest
    | none => findImportsGo fuel cs

/-- All captures of the `@import` pattern, in scan order (a successful
match consumes at least one character, so length-many fuel suffices). -/
def findImports (s : String) : List String := findImportsGo s.toList.length s.toList

/-- `extract_css_from_file` (hello.py:97-109): absolutize, GET, return
body on status 200, `""` on any other status or exception. -/
def extract_css_from_file (fetch : String → FetchRes) (css_url base_url : String) : String :=
  match fetch (absolutizeHttp css_url base_url) with
  | .ok 200 t => t
  | .ok _ _ => ""
  | .exn => ""

/-- `extract_css_from_style` (hello.py:70-95): collect the `@import`
captures, fetch each absolutized import URL, keep the bodies of 200
responses, then append the original style content and join with
newlines.  The fetched import bodies are NOT extracted recursively. -/
def extract_css_from_style (fetch : String → FetchRes) (style_content base_url : String) : String :=
  let imports := findImports style_content
  let css_content := imports.filterMap (fun import_url =>
    match fetch (absolutizeHttp import_url base_url) with
    | .ok 200 t => some t
    | _ => none)
  pyJoin "\n" (css_content ++ [style_content])

/-! ## The `font-family:\s*([^;]+)` scanner (hello.py:239-242) -/

/-- Match `font-family:\s*([^;]+)` at the head of `l` (greedy `\s*`
with one step of backtracking when everything before `;` is
whitespace, as the regex engine would). -/
def matchFontAt (l : List Char) : Option (String × List Char) :=
  if startsList "font-family:".toList l then
    let rest := l.drop 12
    let total := rest.takeWhile (fun c => c ≠ ';')
    if total.isEmpty then none
    else
      let cap := total.dropWhile isPyWs
      let cap2 := if cap.isEmpty then [total.getLastD ' '] else cap
      some (⟨cap2⟩, rest.drop total.length)
  else none

def findFontsGo : Nat → List Char → List String
  | 0, _ => []
  | _ + 1, [] => []
  | fuel + 1, c :: cs =>
    match matchFontAt (c :: cs) with
    | some (cap, rest) => cap :: findFontsGo fuel rest
    | none => findFontsGo fuel cs

def findFontFamilies (s : String) : List String := findFontsGo s.toList.length s.toList

/-! ## The parsed-document model (BeautifulSoup collaborator)

A document is a forest of nodes.  `elemsList` enumerates element nodes
in document (preorder) order, matching `soup.find` / `soup.find_all`
with `recursive=True`.  Serialization `str(tag)` is modelled for the
markup shapes the programme produces (no entity escaping, no void
tags). -/

inductive Node where
  | text (s : String)
  | elem (tag : String) (attrs : List (String × String)) (children : List Node)

def nodeTag : Node → String
  | .text _ => ""
  | .elem t _ _ => t

def nodeAttrs : Node → List (String × String)
  | .text _ => []
  | .elem _ a _ => a

def nodeChildren : Node → List Node
  | .text _ => []
  | .elem _ _ c => c

def attrsGet (attrs : List (String × String)) (k : String) : Option String :=
  (attrs.find? (fun p => p.1 = k)).map (fun p => p.2)

def attrsGetD (attrs : List (String × String)) (k d : String) : String :=
  match attrsGet attrs k with
  | some v => v
  | none => d

mutual
def elemsNode : Node → List Node
  | .text _ => []
  | .elem t a c => .elem t a c :: elemsList c
def elemsList : List Node → List Node
  | [] => []
  | n :: ns => elemsNode n ++ elemsList ns
end

mutual
def getTextNode : Node → String
  | .text s => s
  | .elem _ _ c => getTextList c
def getTextList : List Node → String
  | [] => ""
  | n :: ns => getTextNode n ++ getTextList ns
end

def serializeAttrs (attrs : List (String × String)) : String :=
  attrs.foldl (fun acc p => acc ++ " " ++ p.1 ++ "=\"" ++ p.2 ++ "\"") ""

mutual
def serializeNode : Node → String
  | .text s => s
  | .elem t a c => "<" ++ t ++ serializeAttrs a ++ ">" ++ serializeList c ++ "</" ++ t ++ ">"
def serializeList : List Node → String
  | [] => ""
  | n :: ns => serializeNode n ++ serializeList ns
end

/-- bs4 `.string`: the single string child, descending through a single
element child; `None` when there are zero or several children. -/
def nodeString : Node → Option String
  | .text s => some s
  | .elem _ _ [c] => nodeString c
  | .elem _ _ _ => none

def soupFindTag (soup : List Node) (tag : String) : Option Node :=
  (elemsList soup).find? (fun n => nodeTag n = tag)

def soupFindAllTag (soup : List Node) (tag : String) : List Node :=
  (elemsList soup).filter (fun n => nodeTag n = tag)

/-- Whitespace-split of a multi-valued attribute, as bs4 stores `rel`
and `class`. -/
def wsParts (v : String) : List String :=
  ((splitOnPred isPyWs v.toList).map (fun l => (⟨l⟩ : String))).filter (fun s => s ≠ "")

/-- bs4 match of `rel="stylesheet"` against the multi-valued `rel`. -/
def relStylesheet (attrs : List (String × String)) : Bool :=
  match attrsGet attrs "rel" with
  | some v => (wsParts v).contains "stylesheet"
  | none => false

/-- bs4 match of `rel=lambda x: x and "icon" in x.lower()`: the lambda
is applied to each value of the multi-valued attribute. -/
def relIcon (attrs : List (String × String)) : Bool :=
  match attrsGet attrs "rel" with
  | some v => (wsParts v).any (fun p => containsSub (pyLower p) "icon")
  | none => false

/-! ## The extracted-content bundle (the `content` dict of
`extract_website_content`, hello.py:149-166) -/

structure ImageAsset where
  src : String
  alt : String
  cls : List String
  id : String
  style : String
deriving DecidableEq, Repr

structure IconAsset where
  href : String
  type : String
  sizes : String
deriving DecidableEq, Repr

structure CssFile where
  url : String
  content : String
deriving DecidableEq, Repr

structure Assets where
  images : List ImageAsset
  background_images : List String
  scripts : List String
  fonts : List String
  icons : List IconAsset
deriving DecidableEq, Repr

structure MetaInfo where
  description : String
  viewport : String
  charset : String
deriving DecidableEq, Repr

structure Content where
  title : Option String
  meta : MetaInfo
  styles : List String
  css_files : List CssFile
  «structure» : List (String × String)
  assets : Assets
deriving DecidableEq, Repr

/-- A raised `fastapi.HTTPException` (status code and detail). -/
inductive HErr where
  | http (status : Nat) (detail : String)
deriving DecidableEq, Repr

/-- `soup.find("meta", {"name": nm})["content"]` (hello.py:152-153):
a meta tag matching on `name` but lacking `content` raises `KeyError`,
which the enclosing handler turns into a 500 `HTTPException` (the
Lean detail string abbreviates the interpolated Python message). -/
def metaContentOf (soup : List Node) (nm : String) : Except HErr String :=
  match (elemsList soup).find? (fun n => nodeTag n = "meta" && attrsGet (nodeAttrs n) "name" = some nm) with
  | none => .ok ""
  | some el =>
    match attrsGet (nodeAttrs el) "content" with
    | some v => .ok v
    | none => .error (.http 500 "Error extracting website content: KeyError content")

/-- `soup.find("meta", {"charset": True})["charset"]` (hello.py:154). -/
def metaCharset (soup : List Node) : String :=
  match (elemsList soup).find? (fun n => nodeTag n = "meta" && (attrsGet (nodeAttrs n) "charset").isSome) with
  | some el => attrsGetD (nodeAttrs el) "charset" ""
  | none => "UTF-8"

/-- The structure-extraction loop with body fallback (hello.py:168-178).
No emptiness check is applied to the found elements; the body fallback
fires when the `main` key is missing or maps to a falsy string. -/
def buildStructure (soup : List Node) : List (String × String) :=
  let s0 := ["header", "nav", "main", "footer"].foldl
    (fun acc tag =>
      match soupFindTag soup tag with
      | some el => dictSet acc tag (serializeNode el)
      | none => acc) []
  let mainMissing := match dictGet s0 "main" with
    | none => true
    | some s => s = ""
  if mainMissing then
    match soupFindTag soup "body" with
    | some body => dictSet s0 "main" (serializeNode body)
    | none => s0
  else s0

/-- Inline-style extraction (hello.py:180-185). -/
def buildStyles (fetch : String → FetchRes) (soup : List Node) (base_url : String) : List String :=
  (soupFindAllTag soup "style").foldl
    (fun acc st =>
      match nodeString st with
      | some s =>
        if s ≠ "" then
          let css := extract_css_from_style fetch s base_url
          if css ≠ "" then acc ++ [css] else acc
        else acc
      | none => acc) []

/-- The `href`s submitted to the stylesheet fetch pool
(hello.py:188-193): `link` elements whose `rel` matches `stylesheet`
and whose `href` is present and truthy, in document order. -/
def cssHrefs (soup : List Node) : List String :=
  ((elemsList soup).filter (fun n => nodeTag n = "link" && relStylesheet (nodeAttrs n))).filterMap
    (fun n =>
      match attrsGet (nodeAttrs n) "href" with
      | some h => if h ≠ "" then some h else none
      | none => none)

/-- The stylesheet fetch pool (hello.py:188-204): the worker result is
kept only when non-empty; the recorded `url` is the raw href.
Completion order is abstracted to submission order. -/
def buildCssFiles (fetch : String → FetchRes) (soup : List Node) (base_url : String) : List CssFile :=
  (cssHrefs soup).filterMap (fun href =>
    let c := extract_css_from_file fetch href base_url
    if c ≠ "" then some ⟨href, c⟩ else none)

/-- `<img src>` asset collection (hello.py:207-217). -/
def buildImages (soup : List Node) (base_url : String) : List ImageAsset :=
  ((elemsList soup).filter (fun n => nodeTag n = "img" && (attrsGet (nodeAttrs n) "src").isSome)).map
    (fun n =>
      ⟨absolutizeHttp (attrsGetD (nodeAttrs n) "src" "") base_url,
       attrsGetD (nodeAttrs n) "alt" "",
       (match attrsGet (nodeAttrs n) "class" with
        | some v => wsParts v
        | none => []),
       attrsGetD (nodeAttrs n) "id" "",
       attrsGetD (nodeAttrs n) "style" ""⟩)

/-- Icon collection (hello.py:220-229). -/
def buildIcons (soup : List Node) (base_url : String) : List IconAsset :=
  ((elemsList soup).filter (fun n => nodeTag n = "link" && relIcon (nodeAttrs n))).filterMap
    (fun n =>
      match attrsGet (nodeAttrs n) "href" with
      | some href =>
        if href ≠ "" then
          some ⟨absolutizeHttp href base_url,
                attrsGetD (nodeAttrs n) "type" "",
                attrsGetD (nodeAttrs n) "sizes" ""⟩
        else none
      | none => none)

/-- `<script src>` collection (hello.py:232-236). -/
def buildScripts (soup : List Node) (base_url : String) : List String :=
  ((elemsList soup).filter (fun n => nodeTag n = "script" && (attrsGet (nodeAttrs n) "src").isSome)).map
    (fun n => absolutizeHttp (attrsGetD (nodeAttrs n) "src" "") base_url)

/-- Font collection over the inline styles only (hello.py:239-245). -/
def buildFonts (styles : List String) : List String :=
  dedupFirst (styles.foldl (fun acc st => acc ++ findFontFamilies st) [])

/-- `extract_website_content` (hello.py:136-249), parameterised by the
HTTP fetch and HTML parse collaborators.  Note that
`assets.background_images` is initialised to the empty list and never
appended to anywhere in the function. -/
def extract_website_content (fetch : String → FetchRes) (parse : String → List Node)
    (url : String) : Except HErr Content :=
  match fetch_url fetch url with
  | none => .error (.http 500 "Failed to fetch website content")
  | some html_content =>
    if html_content = "" then .error (.http 500 "Failed to fetch website content")
    else
      match metaContentOf (parse html_content) "description",
            metaContentOf (parse html_content) "viewport" with
      | .error e, _ => .error e
      | .ok _, .error e => .error e
      | .ok desc, .ok view =>
        .ok ⟨(match soupFindTag (parse html_content) "title" with
              | some t => nodeString t
              | none => some ""),
             ⟨desc, view, metaCharset (parse html_content)⟩,
             buildStyles fetch (parse html_content) (get_base_url url),
             buildCssFiles fetch (parse html_content) (get_base_url url),
             buildStructure (parse html_content),
             ⟨buildImages (parse html_content) (get_base_url url), [],
              buildScripts (parse html_content) (get_base_url url),
              buildFonts (buildStyles fetch (parse html_content) (get_base_url url)),
              buildIcons (parse html_content) (get_base_url url)⟩⟩

/-! ## JSON values and `clean_empty_content` (hello.py:124-134) -/

inductive JVal where
  | null
  | str (s : String)
  | arr (items : List JVal)
  | obj (fields : List (String × JVal))

/-- Python truthiness of the JSON-shaped values the bundle contains. -/
def jTruthy : JVal → Bool
  | .null => false
  | .str s => s ≠ ""
  | .arr xs => !xs.isEmpty
  | .obj fs => !fs.isEmpty

def jIsContainer : JVal → Bool
  | .arr _ => true
  | .obj _ => true
  | _ => false

mutual
/-- `clean_empty_content` (hello.py:124-134): drop falsy members and
containers that clean to empty, recursively.  This function has no
caller anywhere in the source. -/
def clean_empty_content : JVal → JVal
  | .null => .null
  | .str s => .str s
  | .obj fs => .obj (cleanFields fs)
  | .arr xs => .arr (cleanItems xs)
def cleanFields : List (String × JVal) → List (String × JVal)
  | [] => []
  | (k, v) :: rest =>
    if jTruthy v && (!jIsContainer v || jTruthy (clean_empty_content v)) then
      (k, clean_empty_content v) :: cleanFields rest
    else cleanFields rest
def cleanItems : List JVal → List JVal
  | [] => []
  | v :: rest =>
    if jTruthy v && (!jIsContainer v || jTruthy (clean_empty_content v)) then
      clean_empty_content v :: cleanItems rest
    else cleanItems rest
end

/-! ## `json.dumps(content, indent=2)` -/

def hexDigit (n : Nat) : Char := if n < 10 then Char.ofNat (48 + n) else Char.ofNat (87 + n)

def hex4 (n : Nat) : String :=
  ⟨[hexDigit (n / 4096 % 16), hexDigit (n / 256 % 16), hexDigit (n / 16 % 16), hexDigit (n % 16)]⟩

/-- JSON string escaping with `ensure_ascii=True` (code points above
0xFFFF, absent from the programme's data, would use surrogate pairs). -/
def jsonEscapeChar (c : Char) : String :=
  if c = '"' then "\\\""
  else if c = '\\' then "\\\\"
  else if c = '\n' then "\\n"
  else if c = '\r' then "\\r"
  else if c = '\t' then "\\t"
  else if c = '\x08' then "\\b"
  else if c = '\x0c' then "\\f"
  else if c.toNat < 0x20 || 0x7f ≤ c.toNat then "\\u" ++ hex4 c.toNat
  else String.singleton c

def jsonEscape (s : String) : String := String.join (s.toList.map jsonEscapeChar)

def jIndent (level : Nat) : String := ⟨List.replicate (2 * level) ' '⟩

mutual
/-- `json.dumps(v, indent=2)` rendered at nesting depth `level`. -/
def jsonDumps : JVal → Nat → String
  | .null, _ => "null"
  | .str s, _ => "\"" ++ jsonEscape s ++ "\""
  | .arr [], _ => "[]"
  | .arr (x :: xs), level =>
    "[\n" ++ dumpsItems (x :: xs) (level + 1) ++ "\n" ++ jIndent level ++ "]"
  | .obj [], _ => "\x7b\x7d"
  | .obj (f :: fs), level =>
    "\x7b\n" ++ dumpsFields (f :: fs) (level + 1) ++ "\n" ++ jIndent level ++ "\x7d"
def dumpsItems : List JVal → Nat → String
  | [], _ => ""
  | [x], level => jIndent level ++ jsonDumps x level
  | x :: y :: rest, level =>
    jIndent level ++ jsonDumps x level ++ ",\n" ++ dumpsItems (y :: rest) level
def dumpsFields : List (String × JVal) → Nat → String
  | [], _ => ""
  | [(k, v)], level => jIndent level ++ "\"" ++ jsonEscape k ++ "\": " ++ jsonDumps v level
  | (k, v) :: g :: rest, level =>
    jIndent level ++ "\"" ++ jsonEscape k ++ "\": " ++ jsonDumps v level ++ ",\n" ++
      dumpsFields (g :: rest) level
end

def imageToJson (i : ImageAsset) : JVal :=
  .obj [("src", .str i.src), ("alt", .str i.alt), ("class", .arr (i.cls.map .str)),
        ("id", .str i.id), ("style", .str i.style)]

def iconToJson (i : IconAsset) : JVal :=
  .obj [("href", .str i.href), ("type", .str i.type), ("sizes", .str i.sizes)]

/-- The `content` dict as the JSON value `json.dumps` receives, with
keys in insertion order (hello.py:149-166). -/
def contentToJson (c : Content) : JVal :=
  .obj [
    ("title", match c.title with | none => .null | some s => .str s),
    ("meta", .obj [("description", .str c.meta.description),
                   ("viewport", .str c.meta.viewport),
                   ("charset", .str c.meta.charset)]),
    ("styles", .arr (c.styles.map .str)),
    ("css_files", .arr (c.css_files.map (fun f => .obj [("url", .str f.url), ("content", .str f.content)]))),
    ("structure", .obj (c.«structure».map (fun p => (p.1, .str p.2)))),
    ("assets", .obj [
      ("images", .arr (c.assets.images.map imageToJson)),
      ("background_images", .arr (c.assets.background_images.map .str)),
      ("scripts", .arr (c.assets.scripts.map .str)),
      ("fonts", .arr (c.assets.fonts.map .str)),
      ("icons", .arr (c.assets.icons.map iconToJson))])]

/-! ## Generative synthesis (`generate_html_with_gemini`, hello.py:287-379) -/

/-- The combined CSS block of the prompt (hello.py:293-305). -/
def combinedCss (c : Content) : String :=
  pyJoin "\n" (c.styles ++ c.css_files.map (fun f => "/* CSS from " ++ f.url ++ " */\n" ++ f.content))

/-- The f-string prompt (hello.py:308-316), reproduced with its
indentation.  The serialized bundle is the RAW `content` value:
`clean_empty_content` is never applied to it. -/
def buildPrompt (c : Content) : String :=
  "\n        Generate complete HTML replicating this website. Minimize whitespace but preserve all functionality:\n\n        Website: "
    ++ jsonDumps (contentToJson c) 0
    ++ "\n        CSS: " ++ combinedCss c
    ++ "\n\n        Output: Complete standalone HTML file with inline CSS, absolute URLs, exact styling.\n        Start with <!DOCTYPE html>, include full <head> and <body> sections.\n        "

/-- The Gemini collaborator: a raised exception carrying a message, or
a response whose `.text` is the given string (a missing/empty `.text`
is the empty string). -/
inductive GeminiResp where
  | raise (msg : String)
  | ok (text : String)

/-- `re.sub(r'```html\n|```', '', s)` (hello.py:356): leftmost scan,
first alternative preferred. -/
def stripFencesGo : Nat → List Char → List Char
  | 0, l => l
  | _ + 1, [] => []
  | fuel + 1, c :: cs =>
    if startsList "```html\n".toList (c :: cs) then stripFencesGo fuel ((c :: cs).drop 8)
    else if startsList "```".toList (c :: cs) then stripFencesGo fuel ((c :: cs).drop 3)
    else c :: stripFencesGo fuel cs

def stripFences (s : String) : String := ⟨stripFencesGo s.toList.length s.toList⟩

/-- `re.sub(r'\n{3,}', '\n\n', s)` (hello.py:357). -/
def collapseNLGo : Nat → List Char → List Char
  | 0, l => l
  | _ + 1, [] => []
  | fuel + 1, c :: cs =>
    if c = '\n' && 2 ≤ (cs.takeWhile (fun d => d = '\n')).length then
      '\n' :: '\n' :: collapseNLGo fuel (cs.dropWhile (fun d => d = '\n'))
    else c :: collapseNLGo fuel cs

def collapseNewlines (s : String) : String := ⟨collapseNLGo s.toList.length s.toList⟩

/-- The exception handler of `generate_html_with_gemini`
(hello.py:369-379): any exception whose lowercased message contains
"quota" or "rate" becomes a 429, every other one a 500. -/
def classifyGenExc (msg : String) : HErr :=
  if containsSub (pyLower msg) "quota" || containsSub (pyLower msg) "rate" then
    .http 429 "Rate limit exceeded. Please try again in a few minutes or upgrade your API plan at https://ai.google.dev/gemini-api/docs/rate-limits"
  else
    .http 500 ("Error generating HTML with Gemini: " ++ msg)

/-- `generate_html_with_gemini` (hello.py:287-379), parameterised by
the Gemini collaborator (a function from the prompt to its response). -/
def generate_html_with_gemini (gemini : String → GeminiResp) (content : Content) : Except HErr String :=
  match gemini (buildPrompt content) with
  | .raise msg => .error (classifyGenExc msg)
  | .ok text =>
    if text = "" then .error (classifyGenExc "Empty response from Gemini")
    else
      let html_code := collapseNewlines (stripFences text)
      if pyStrip html_code = "" then .error (classifyGenExc "Generated HTML code is empty")
      else if !pyStartsWith (pyStrip html_code) "<!DOCTYPE html>" then
        .error (classifyGenExc "Generated code is not valid HTML")
      else .ok (pyStrip html_code)

/-! ## The orchestrator (`clone_website`, hello.py:533-579) and the
preview endpoint (`preview_html`, hello.py:622-642) -/

/-- The Light Path: extraction followed by the generative call
(hello.py:542-543 and 552-553). -/
def lightPath (fetch : String → FetchRes) (parse : String → List Node)
    (gemini : String → GeminiResp) (url : String) : Except HErr String := do
  let content ← extract_website_content fetch parse url
  generate_html_with_gemini gemini content

structure CloneOk where
  html : String
  message : String
  preview_id : String
  store : List (String × String)
deriving DecidableEq, Repr

/-- `clone_website` (hello.py:533-579).  `render` is the result of the
opaque `clone_with_playwright` capability, which wraps every failure in
an `HTTPException` (hello.py:521-531), the only exception class the
fallback handler catches.  `html_id` stands for the fresh `uuid4` and
`temp_path` for the temporary file name. -/
def clone_website (fetch : String → FetchRes) (parse : String → List Node)
    (gemini : String → GeminiResp) (render : Except HErr String)
    (is_small : Bool) (url html_id temp_path : String)
    (store : List (String × String)) : Except HErr CloneOk :=
  let htmlE : Except HErr String :=
    if is_small then lightPath fetch parse gemini url
    else
      match render with
      | .ok h => .ok h
      | .error _ => lightPath fetch parse gemini url
  match htmlE with
  | .error e => .error e
  | .ok html_code =>
    .ok ⟨html_code,
         "Website cloned successfully. HTML saved to: " ++ temp_path,
         html_id,
         dictSet store html_id html_code⟩

/-- The warning banner div built at hello.py:636-638. -/
def warningDiv : Node :=
  .elem "div"
    [("style", "position: fixed; top: 0; left: 0; right: 0; background: #ff4444; color: white; padding: 1rem; text-align: center; z-index: 9999;")]
    [.text "Warning: The page appears to be empty. Try using the other website size option."]

mutual
/-- `soup.body.insert(0, warning_div)`: rewrite the first `body`
element (document order), prepending the warning div to its children;
the Bool reports whether a body was found. -/
def insertWarnNode : Node → (Node × Bool)
  | .text s => (.text s, false)
  | .elem t a c =>
    if t = "body" then (.elem t a (warningDiv :: c), true)
    else
      match insertWarnList c with
      | (c2, d) => (.elem t a c2, d)
def insertWarnList : List Node → (List Node × Bool)
  | [] => ([], false)
  | n :: ns =>
    match insertWarnNode n with
    | (n2, true) => (n2 :: ns, true)
    | (_, false) =>
      match insertWarnList ns with
      | (ns2, d) => (n :: ns2, d)
end

/-- `preview_html` (hello.py:622-642), parameterised by the
BeautifulSoup parse collaborator.  When the parsed document has no
`body` element at all, `soup.body.get_text()` short-circuits to `""`
and `soup.body.insert(0, ...)` raises `AttributeError` on `None`,
which FastAPI surfaces as a 500 internal server error. -/
def preview_html (parse : String → List Node) (store : List (String × String))
    (html_id : String) : Except HErr String :=
  match dictGet store html_id with
  | none => .error (.http 404 "Preview not found")
  | some html_content =>
    let soup := parse html_content
    let body_content := match soupFindTag soup "body" with
      | some b => pyStrip (getTextNode b)
      | none => ""
    if body_content = "" then
      match soupFindTag soup "body" with
      | none => .error (.http 500 "Internal Server Error")
      | some _ =>
        match insertWarnList soup with
        | (soup2, _) => .ok (serializeList soup2)
    else .ok html_content

/-! ## Shared helper lemmas -/

/-- Destructor for a successful extraction: the page was fetched
non-empty and each derived component is the corresponding builder
applied to the parsed page. -/
theorem extract_ok_parts (fetch : String → FetchRes) (parse : String → List Node)
    (url : String) (c : Content)
    (hc : extract_website_content fetch parse url = .ok c) :
    ∃ page, fetch_url fetch url = some page ∧ page ≠ "" ∧
      c.styles = buildStyles fetch (parse page) (get_base_url url) ∧
      c.css_files = buildCssFiles fetch (parse page) (get_base_url url) ∧
      c.«structure» = buildStructure (parse page) ∧
      c.assets = ⟨buildImages (parse page) (get_base_url url), [],
                  buildScripts (parse page) (get_base_url url),
                  buildFonts (buildStyles fetch (parse page) (get_base_url url)),
                  buildIcons (parse page) (get_base_url url)⟩ := by
  unfold extract_website_content at hc
  cases hfu : fetch_url fetch url with
  | none => rw [hfu] at hc; exact absurd hc (by simp)
  | some page =>
    rw [hfu] at hc
    dsimp only at hc
    by_cases hpage : page = ""
    · rw [if_pos hpage] at hc; exact absurd hc (by simp)
    · rw [if_neg hpage] at hc
      cases hd : metaContentOf (parse page) "description" with
      | error e => rw [hd] at hc; exact absurd hc (by simp)
      | ok d =>
        cases hv : metaContentOf (parse page) "viewport" with
        | error e => rw [hd, hv] at hc; exact absurd hc (by simp)
        | ok v =>
          rw [hd, hv] at hc
          dsimp only at hc
          simp only [Except.ok.injEq] at hc
          exact ⟨page, rfl, hpage, by rw [← hc], by rw [← hc], by rw [← hc], by rw [← hc]⟩

/-- A member of a joined list is a chunk of the join. -/
theorem pyJoin_chunk (sep x : String) (l : List String) (h : x ∈ l) :
    ∃ pre post, pyJoin sep l = pre ++ x ++ post := by
  induction l with
  | nil => cases h
  | cons a t ih =>
    cases t with
    | nil =>
      rcases List.mem_singleton.mp h with rfl
      exact ⟨"", "", by simp [pyJoin]⟩
    | cons b r =>
      rcases List.mem_cons.mp h with rfl | hmem
      · exact ⟨"", sep ++ pyJoin sep (b :: r), by simp [pyJoin, String.append_assoc]⟩
      · rcases ih hmem with ⟨pre, post, hpre⟩
        refine ⟨a ++ sep ++ pre, post, ?_⟩
        simp [pyJoin, hpre, String.append_assoc]

/-- Length of a `filterMap` counted through the `isSome` filter. -/
theorem length_filterMap_eq_length_filter {α β : Type} (f : α → Option β) (l : List α) :
    (l.filterMap f).length = (l.filter (fun x => (f x).isSome)).length := by
  induction l with
  | nil => rfl
  | cons a t ih => cases h : f a <;> simp [List.filterMap_cons, h, ih]

/-! ## Concrete instances used by the counterexamples and witnesses -/

/-- A content bundle with empty meta fields and empty asset lists. -/
def emptyContent : Content :=
  ⟨some "", ⟨"", "", "UTF-8"⟩, [], [], [], ⟨[], [], [], [], []⟩⟩

def c1fetch : String → FetchRes := fun u =>
  if u = "http://a.com/" then .ok 200 "P" else .exn

def c1parse : String → List Node := fun _ =>
  [.elem "html" [] [.elem "body" [] [.text "hi"]]]

def c1gem : String → GeminiResp := fun _ => .ok "<!DOCTYPE html><p>hi</p>"

def c2doc : List Node :=
  [.elem "html" [] [.elem "header" [] [], .elem "body" [] [.text "x"]]]

def c2fetch : String → FetchRes := fun u =>
  if u = "http://ex.com/" then .ok 200 "PAGE" else .exn

def c2parse : String → List Node := fun _ => c2doc

def c3fetch : String → FetchRes := fun u =>
  if u = "https://ex.com/a.css" then .ok 200 "@import url(b.css)"
  else if u = "https://ex.com/b.css" then .ok 200 ".b-blue"
  else .exn

def c4doc : List Node :=
  [.elem "html" [] [
    .elem "link" [("rel", "stylesheet"), ("href", "a.css")] [],
    .elem "link" [("rel", "stylesheet"), ("href", "b.css")] []]]

def c4fetch : String → FetchRes := fun u =>
  if u = "http://ex.com/" then .ok 200 "PAGE"
  else if u = "http://ex.com/a.css" then .ok 200 ""
  else if u = "http://ex.com/b.css" then .ok 204 "x"
  else .exn

def c4parse : String → List Node := fun _ => c4doc

def c5doc : List Node :=
  [.elem "html" [] [
    .elem "style" [] [.text "body-bg: url(bg.png)"],
    .elem "body" [] [.text "x"]]]

def c5fetch : String → FetchRes := fun u =>
  if u = "http://ex.com/" then .ok 200 "PAGE" else .exn

def c5parse : String → List Node := fun _ => c5doc

def c10doc : List Node :=
  [.elem "html" [] [
    .elem "link" [("rel", "stylesheet"), ("href", "css/site.css")] [],
    .elem "body" [] [.text "x"]]]

def c10fetch : String → FetchRes := fun u =>
  if u = "http://ex.com/p" then .ok 200 "PAGE"
  else if u = "http://ex.com/css/site.css" then .ok 200 "body-css"
  else .exn

def c10parse : String → List Node := fun _ => c10doc

/-! ## Claim-side definitions (vocabulary of the specification, used to
STATE claims, never to compute the programme's behaviour) -/

/-- Tag-stripping state machine over serialized markup: the visible
text is what stands outside angle brackets. -/
def stripTagsGo : Nat → Bool → List Char → List Char
  | 0, _, _ => []
  | _ + 1, _, [] => []
  | fuel + 1, inTag, c :: cs =>
    if c = '<' then stripTagsGo fuel true cs
    else if c = '>' then stripTagsGo fuel false cs
    else if inTag then stripTagsGo fuel inTag cs
    else c :: stripTagsGo fuel inTag cs

/-- C2's notion of the visible text of a structure entry, "ignoring
markup". -/
def visibleTextOfMarkup (m : String) : String := ⟨stripTagsGo m.toList.length false m.toList⟩

/-- C4's notion of a failed stylesheet fetch: non-2xx status or
transport error. -/
def fetchFailsSpec (fetch : String → FetchRes) (base href : String) : Bool :=
  match fetch (absolutizeHttp href base) with
  | .ok s _ => !(200 ≤ s && 300 > s)
  | .exn => true

/-- Amended description of the structure mapping for C2: each of the
four tags contributes the serialization of its first occurrence when
present, with no visible-text condition, and `main` falls back to the
document body when no `main` element exists. -/
def structureSpecNoFilter (soup : List Node) : List (String × String) :=
  let entries := ["header", "nav", "main", "footer"].filterMap
    (fun tag => (soupFindTag soup tag).map (fun el => (tag, serializeNode el)))
  if (soupFindTag soup "main").isSome then entries
  else
    match soupFindTag soup "body" with
    | some body => entries ++ [("main", serializeNode body)]
    | none => entries

/-! ## More helper lemmas -/

theorem serializeNode_elem_ne (t : String) (a : List (String × String)) (c : List Node) :
    serializeNode (.elem t a c) ≠ "" := by
  intro h
  have hl := congrArg String.length h
  rw [serializeNode] at hl
  simp only [String.length_append] at hl
  have h1 : "<".length = 1 := rfl
  have h0 : "".length = 0 := rfl
  omega

/-- A node found by tag search with a nonempty tag is an element, so
its serialization is nonempty. -/
theorem serializeNode_ne_of_found (soup : List Node) (tag : String) (el : Node)
    (h : soupFindTag soup tag = some el) (hne : tag ≠ "") :
    serializeNode el ≠ "" := by
  have hp := List.find?_some h
  have htag : nodeTag el = tag := by simpa using hp
  cases el with
  | text s => exact absurd htag.symm (by simpa [nodeTag] using hne)
  | elem t2 a2 c2 => exact serializeNode_elem_ne t2 a2 c2

theorem dictGet_dictSet_self (store : List (String × String)) (k v : String) :
    dictGet (dictSet store k v) k = some v := by
  unfold dictGet dictSet
  by_cases h : (store.find? (fun p => p.1 = k)).isSome
  · rw [if_pos h]
    induction store with
    | nil => simp at h
    | cons p t ih =>
      by_cases hp : p.1 = k
      · simp [List.find?_cons, hp]
      · have h2 : (t.find? (fun q => q.1 = k)).isSome := by
          simpa [List.find?_cons, hp] using h
        simpa [List.find?_cons, hp] using ih h2
  · rw [if_neg h]
    rw [List.find?_append]
    rw [Option.not_isSome_iff_eq_none] at h
    simp [h, List.find?_cons]

/-- A non-empty result of `extract_css_from_file` is exactly the body
of a 200 response to the absolutized URL. -/
theorem extract_css_from_file_ok (fetch : String → FetchRes) (css_url base_url : String)
    (h : extract_css_from_file fetch css_url base_url ≠ "") :
    fetch (absolutizeHttp css_url base_url) = .ok 200 (extract_css_from_file fetch css_url base_url) := by
  unfold extract_css_from_file at h ⊢
  split at h
  next t heq => rw [heq]
  next => exact absurd rfl h
  next => exact absurd rfl h

/-- Cleaning a scalar value is the identity. -/
theorem clean_scalar (v : JVal) (h : jIsContainer v = false) :
    clean_empty_content v = v := by
  cases v with
  | null => rfl
  | str s => rfl
  | arr xs => simp [jIsContainer] at h
  | obj fs => simp [jIsContainer] at h

/-- The structure fold of the source equals the amended spec-side
description. -/
theorem buildStructure_eq_spec (soup : List Node) :
    buildStructure soup = structureSpecNoFilter soup := by
  cases hm : soupFindTag soup "main" with
  | none =>
    cases hh : soupFindTag soup "header" <;>
      cases hn : soupFindTag soup "nav" <;>
        cases hf : soupFindTag soup "footer" <;>
          cases hb : soupFindTag soup "body" <;>
            simp [buildStructure, structureSpecNoFilter, dictSet, dictGet,
                  hm, hh, hn, hf, hb]
  | some el =>
    have hser : ¬(serializeNode el = "") :=
      serializeNode_ne_of_found soup "main" el hm (by decide)
    cases hh : soupFindTag soup "header" <;>
      cases hn : soupFindTag soup "nav" <;>
        cases hf : soupFindTag soup "footer" <;>
          simp [buildStructure, structureSpecNoFilter, dictSet, dictGet,
                hm, hh, hn, hf, hser]

/-! ## Claim C2 -/

/-- C2 counterexample: on a page whose `header` element has no text at
all, the extracted structure mapping still contains the `header` entry,
whose visible text is empty after trimming — the code (hello.py:168-178)
applies no text-emptiness filter. -/
theorem c2_counterexample :
    (extract_website_content c2fetch c2parse "http://ex.com/").map (fun c => c.«structure»)
      = .ok [("header", "<header></header>"), ("main", "<body>x</body>")]
    ∧ pyStrip (visibleTextOfMarkup "<header></header>") = "" := ⟨by rfl, by rfl⟩

/-- C2 (amended): the structure mapping contains an entry for every tag
among header/nav/main/footer whose element occurs in the document — the
serialization of its first occurrence — regardless of whether its
visible text is empty; `main` falls back to the document body when no
`main` element exists. -/
theorem c2_structure_unfiltered :
    (∀ soup : List Node, buildStructure soup = structureSpecNoFilter soup)
    ∧ (∀ (fetch : String → FetchRes) (parse : String → List Node) (url : String) (c : Content),
        extract_website_content fetch parse url = .ok c →
        ∃ page, fetch_url fetch url = some page ∧
          c.«structure» = structureSpecNoFilter (parse page)) := by
  refine ⟨buildStructure_eq_spec, ?_⟩
  intro fetch parse url c hc
  rcases extract_ok_parts fetch parse url c hc with ⟨page, hfu, _, _, _, hstr, _⟩
  exact ⟨page, hfu, by rw [hstr, buildStructure_eq_spec]⟩

def c2content : Content :=
  ⟨some "", ⟨"", "", "UTF-8"⟩, [], [],
   [("header", "<header></header>"), ("main", "<body>x</body>")],
   ⟨[], [], [], [], []⟩⟩

theorem c2_structure_unfiltered_witness :
    ∃ page, fetch_url c2fetch "http://ex.com/" = some page ∧
      c2content.«structure» = structureSpecNoFilter (c2parse page) :=
  c2_structure_unfiltered.2 c2fetch c2parse "http://ex.com/" c2content (by rfl)

/-! ## Claim C3 -/

/-- C3 counterexample: with `a.css` whose body is itself an import of
`b.css`, the extracted output contains the text of `a.css` verbatim but
not the content of `b.css`: the import handling of
`extract_css_from_style` (hello.py:70-95) appends fetched bodies
without recursing into them. -/
theorem c3_counterexample :
    extract_css_from_style c3fetch "@import url(a.css)\n.x-red" "https://ex.com"
      = "@import url(b.css)\n@import url(a.css)\n.x-red"
    ∧ containsSub
        (extract_css_from_style c3fetch "@import url(a.css)\n.x-red" "https://ex.com")
        ".b-blue" = false
    ∧ c3fetch "https://ex.com/b.css" = .ok 200 ".b-blue" := ⟨by rfl, by rfl, by rfl⟩

/-- C3 (amended): import handling is single-level, not recursive — the
extracted output contains, as a contiguous chunk, the body of every
directly imported stylesheet whose fetch returned 200, but imports
inside those bodies are left unexpanded. -/
theorem c3_imports_single_level
    (fetch : String → FetchRes) (style base u t : String)
    (hu : u ∈ findImports style)
    (hf : fetch (absolutizeHttp u base) = .ok 200 t) :
    ∃ pre post, extract_css_from_style fetch style base = pre ++ t ++ post := by
  have hmem : t ∈ (findImports style).filterMap (fun import_url =>
      match fetch (absolutizeHttp import_url base) with
      | .ok 200 t2 => some t2
      | _ => none) :=
    List.mem_filterMap.mpr ⟨u, hu, by rw [hf]⟩
  exact pyJoin_chunk "\n" t _ (List.mem_append_left _ hmem)

theorem c3_imports_single_level_witness :
    ∃ pre post,
      extract_css_from_style c3fetch "@import url(a.css)\n.x-red" "https://ex.com"
        = pre ++ "@import url(b.css)" ++ post :=
  c3_imports_single_level c3fetch "@import url(a.css)\n.x-red" "https://ex.com"
    "a.css" "@import url(b.css)" (by decide) (by rfl)

/-! ## Claim C5 -/

/-- C5 counterexample: a page whose collected CSS contains a `url(...)`
reference still yields an empty `background_images` — the asset
collector (hello.py:206-247) never appends to
`assets["background_images"]`. -/
theorem c5_counterexample :
    (extract_website_content c5fetch c5parse "http://ex.com/").map
        (fun c => (c.styles, c.assets.background_images))
      = .ok (["body-bg: url(bg.png)"], [])
    ∧ containsSub "body-bg: url(bg.png)" "url(" = true := ⟨by rfl, by rfl⟩

/-- C5 (amended): `background_images` is ALWAYS the empty sequence in
every successfully extracted bundle; no code path populates it. -/
theorem c5_background_images_always_empty
    (fetch : String → FetchRes) (parse : String → List Node) (url : String) (c : Content)
    (hc : extract_website_content fetch parse url = .ok c) :
    c.assets.background_images = [] := by
  rcases extract_ok_parts fetch parse url c hc with ⟨page, _, _, _, _, _, hassets⟩
  rw [hassets]

def c5content : Content :=
  ⟨some "", ⟨"", "", "UTF-8"⟩, ["body-bg: url(bg.png)"], [],
   [("main", "<body>x</body>")], ⟨[], [], [], [], []⟩⟩

theorem c5_background_images_always_empty_witness :
    c5content.assets.background_images = [] :=
  c5_background_images_always_empty c5fetch c5parse "http://ex.com/" c5content (by rfl)

/-! ## Claim C7 -/

/-- C7: the post-processing of the generative response strips fences
and collapses newline runs, and an empty response, a non-doctype
response and a quota signal each FAIL — but the non-doctype and
cleaned-to-empty failures are surfaced with the SAME 429 rate-limit
error as a real quota failure, because the lowercased message
"Generated ..." contains the substring "rate" (hello.py:371).  The
code contradicts its own error text ("Rate limit exceeded") on inputs
that have nothing to do with rate limiting. -/
theorem c7_nondoctype_misclassified_as_rate_limit :
    generate_html_with_gemini (fun _ => .ok "hello") emptyContent
      = .error (.http 429 "Rate limit exceeded. Please try again in a few minutes or upgrade your API plan at https://ai.google.dev/gemini-api/docs/rate-limits")
    ∧ generate_html_with_gemini (fun _ => .ok "```") emptyContent
      = .error (.http 429 "Rate limit exceeded. Please try again in a few minutes or upgrade your API plan at https://ai.google.dev/gemini-api/docs/rate-limits")
    ∧ generate_html_with_gemini (fun _ => .raise "Resource has been exhausted: check quota") emptyContent
      = .error (.http 429 "Rate limit exceeded. Please try again in a few minutes or upgrade your API plan at https://ai.google.dev/gemini-api/docs/rate-limits")
    ∧ generate_html_with_gemini (fun _ => .ok "") emptyContent
      = .error (.http 500 "Error generating HTML with Gemini: Empty response from Gemini")
    ∧ containsSub (pyLower "Generated code is not valid HTML") "rate" = true
    ∧ stripFences "```html\n<!DOCTYPE html>x```" = "<!DOCTYPE html>x"
    ∧ collapseNewlines "a\n\n\n\nb" = "a\n\nb"
    ∧ generate_html_with_gemini (fun _ => .ok "```html\n<!DOCTYPE html><p>x</p>\n\n\n\n```") emptyContent
      = .ok "<!DOCTYPE html><p>x</p>" :=
  ⟨by rfl, by rfl, by rfl, by rfl, by rfl, by rfl, by rfl, by rfl⟩

/-! ## Claim C4 -/

/-- C4 counterexample: two stylesheet links (K = 2) of which none fails
with a non-2xx status or transport error (M = 0), yet `css_files` has 0
entries, not K − M = 2: a 200 response with an empty body and a 204
response are both dropped by the `if css_content:` / `status == 200`
checks (hello.py:198, 104). -/
theorem c4_counterexample :
    (cssHrefs c4doc).length = 2
    ∧ ((cssHrefs c4doc).filter (fun h => fetchFailsSpec c4fetch "http://ex.com" h)).length = 0
    ∧ (extract_website_content c4fetch c4parse "http://ex.com/").map (fun c => c.css_files)
        = .ok [] := ⟨by rfl, by rfl, by rfl⟩

/-- C4 (amended): `css_files` has exactly one entry per stylesheet link
whose fetch returned status exactly 200 with a NON-EMPTY body; each
entry's url is a submitted href and its content is that 200 body; a
failed link only drops its own entry, never the batch. -/
theorem c4_css_files_count
    (fetch : String → FetchRes) (parse : String → List Node) (url : String) (c : Content)
    (hc : extract_website_content fetch parse url = .ok c) :
    ∃ page, fetch_url fetch url = some page ∧
      c.css_files.length = ((cssHrefs (parse page)).filter
          (fun href => extract_css_from_file fetch href (get_base_url url) ≠ "")).length
      ∧ ∀ e ∈ c.css_files,
          e.url ∈ cssHrefs (parse page) ∧
          fetch (absolutizeHttp e.url (get_base_url url)) = .ok 200 e.content ∧
          e.content ≠ "" := by
  rcases extract_ok_parts fetch parse url c hc with ⟨page, hfu, _, _, hcss, _, _⟩
  refine ⟨page, hfu, ?_, ?_⟩
  · rw [hcss]
    unfold buildCssFiles
    rw [length_filterMap_eq_length_filter]
    congr 1
    apply List.filter_congr
    intro href _
    by_cases h : extract_css_from_file fetch href (get_base_url url) = "" <;> simp [h]
  · intro e he
    rw [hcss] at he
    unfold buildCssFiles at he
    rcases List.mem_filterMap.mp he with ⟨href, hhref, hfm⟩
    by_cases h : extract_css_from_file fetch href (get_base_url url) = ""
    · rw [if_neg (by simpa using h)] at hfm
      cases hfm
    · rw [if_pos h] at hfm
      have he2 : e = ⟨href, extract_css_from_file fetch href (get_base_url url)⟩ :=
        (Option.some.injEq _ _ ▸ hfm).symm
      subst he2
      exact ⟨hhref, extract_css_from_file_ok fetch href (get_base_url url) h, h⟩

def c4okdoc : List Node :=
  [.elem "html" [] [
    .elem "link" [("rel", "stylesheet"), ("href", "a.css")] [],
    .elem "link" [("rel", "stylesheet"), ("href", "b.css")] [],
    .elem "body" [] [.text "x"]]]

def c4okfetch : String → FetchRes := fun u =>
  if u = "http://ex.com/" then .ok 200 "PAGE"
  else if u = "http://ex.com/a.css" then .ok 200 "a-css"
  else .ok 404 "nope"

def c4okparse : String → List Node := fun _ => c4okdoc

def c4okcontent : Content :=
  ⟨some "", ⟨"", "", "UTF-8"⟩, [], [⟨"a.css", "a-css"⟩],
   [("main", "<body>x</body>")], ⟨[], [], [], [], []⟩⟩

theorem c4_css_files_count_witness :
    ∃ page, fetch_url c4okfetch "http://ex.com/" = some page ∧
      c4okcontent.css_files.length = ((cssHrefs (c4okparse page)).filter
          (fun href => extract_css_from_file c4okfetch href (get_base_url "http://ex.com/") ≠ "")).length
      ∧ ∀ e ∈ c4okcontent.css_files,
          e.url ∈ cssHrefs (c4okparse page) ∧
          c4okfetch (absolutizeHttp e.url (get_base_url "http://ex.com/")) = .ok 200 e.content ∧
          e.content ≠ "" :=
  c4_css_files_count c4okfetch c4okparse "http://ex.com/" c4okcontent (by rfl)

/-! ## Claim C6 -/

/-- bs4 parses the bare string `"<!DOCTYPE html>"` (a generation that
passes the doctype check with no body) to a document containing no
`body` element. -/
def c6parseNoBody : String → List Node := fun _ => []

def c6parseFull : String → List Node := fun _ =>
  [.elem "html" [] [.elem "body" [] [.text "hi"]]]

def c6parseEmptyBody : String → List Node := fun _ =>
  [.elem "html" [] [.elem "body" [] [.text " "]]]

/-- C6 counterexample: a stored artifact whose visible body text is
empty because the document has NO body element at all — e.g. the bare
`"<!DOCTYPE html>"`, which passes the generation validity check — makes
`Get` fail with an internal error (`soup.body.insert` on `None` raises
`AttributeError`, hello.py:639) instead of returning the HTML with the
warning banner prepended. -/
theorem c6_counterexample :
    preview_html c6parseNoBody (dictSet [] "id1" "<!DOCTYPE html>") "id1"
      = .error (.http 500 "Internal Server Error") := by rfl

/-- C6 (amended): `Get` of an unknown id is NotFound; `Put` then `Get`
returns the identical string when the parsed document has a body
element with non-empty trimmed text; when it has a body element with
EMPTY visible text the warning div is inserted as the body's first
child and the re-serialized document is returned; but when no body
element exists at all the endpoint raises an internal error instead. -/
theorem c6_artifact_store
    (parse : String → List Node) (store : List (String × String)) (id html : String) :
    (dictGet store id = none → preview_html parse store id = .error (.http 404 "Preview not found"))
    ∧ (∀ b, soupFindTag (parse html) "body" = some b → pyStrip (getTextNode b) ≠ "" →
        preview_html parse (dictSet store id html) id = .ok html)
    ∧ (∀ b, soupFindTag (parse html) "body" = some b → pyStrip (getTextNode b) = "" →
        preview_html parse (dictSet store id html) id
          = .ok (serializeList (insertWarnList (parse html)).1)) := by
  refine ⟨?_, ?_, ?_⟩
  · intro hmiss
    unfold preview_html
    rw [hmiss]
  · intro b hb hbt
    unfold preview_html
    rw [dictGet_dictSet_self]
    dsimp only
    rw [hb]
    dsimp only
    rw [if_neg hbt]
  · intro b hb hbt
    unfold preview_html
    rw [dictGet_dictSet_self]
    dsimp only
    rw [hb]
    dsimp only
    rw [if_pos hbt]

theorem c6_artifact_store_witness :
    preview_html c6parseFull (dictSet [] "a" "<html><body>hi</body></html>") "a"
      = .ok "<html><body>hi</body></html>"
    ∧ preview_html c6parseFull [] "zz" = .error (.http 404 "Preview not found")
    ∧ preview_html c6parseEmptyBody (dictSet [] "b" "<html><body> </body></html>") "b"
      = .ok (serializeList (insertWarnList (c6parseEmptyBody "<html><body> </body></html>")).1) :=
  ⟨(c6_artifact_store c6parseFull [] "a" "<html><body>hi</body></html>").2.1
      (.elem "body" [] [.text "hi"]) (by rfl) (by decide),
   (c6_artifact_store c6parseFull [] "zz" "x").1 (by rfl),
   (c6_artifact_store c6parseEmptyBody [] "b" "<html><body> </body></html>").2.2
      (.elem "body" [] [.text " "]) (by rfl) (by decide)⟩

/-! ## Claim C8 -/

def c8head : String :=
  "\n        Generate complete HTML replicating this website. Minimize whitespace but preserve all functionality:\n\n        Website: "

set_option maxRecDepth 40000 in
/-- C8 counterexample: the serialized bundle embedded in the prompt
retains empty containers and empty-string meta fields (here the empty
`background_images` list and the empty `description`), which
`clean_empty_content` would have removed — the cleaning pass exists in
the source (hello.py:124-134) but is never invoked. -/
theorem c8_counterexample :
    containsSub (buildPrompt emptyContent) "\"background_images\": []" = true
    ∧ containsSub (buildPrompt emptyContent) "\"description\": \"\"" = true
    ∧ jsonDumps (clean_empty_content (contentToJson emptyContent)) 0
        = "\x7b\n  \"meta\": \x7b\n    \"charset\": \"UTF-8\"\n  \x7d\n\x7d"
    ∧ containsSub (jsonDumps (clean_empty_content (contentToJson emptyContent)) 0)
        "background_images" = false := ⟨by rfl, by rfl, by rfl, by rfl⟩

/-- C8 (amended): `clean_empty_content` does implement the depth-first
removal the specification describes — every member of a cleaned mapping
or sequence is truthy (non-empty) — but it is dead code: the prompt
serializes the RAW bundle `json.dumps(content, indent=2)`
(hello.py:311), with no cleaning pass applied. -/
theorem c8_raw_bundle_serialized :
    (∀ c : Content, ∃ post, buildPrompt c
        = c8head ++ jsonDumps (contentToJson c) 0 ++ post)
    ∧ (∀ (fs : List (String × JVal)) (k : String) (v : JVal),
        (k, v) ∈ cleanFields fs → jTruthy v = true)
    ∧ (∀ (xs : List JVal) (v : JVal), v ∈ cleanItems xs → jTruthy v = true) := by
  refine ⟨?_, ?_, ?_⟩
  · intro c
    refine ⟨"\n        CSS: " ++ combinedCss c
      ++ "\n\n        Output: Complete standalone HTML file with inline CSS, absolute URLs, exact styling.\n        Start with <!DOCTYPE html>, include full <head> and <body> sections.\n        ", ?_⟩
    simp [buildPrompt, c8head, String.append_assoc]
  · intro fs
    induction fs with
    | nil => intro k v h; cases h
    | cons p t ih =>
      obtain ⟨k0, v0⟩ := p
      intro k v h
      rw [cleanFields] at h
      by_cases hcond : (jTruthy v0 && (!jIsContainer v0 || jTruthy (clean_empty_content v0))) = true
      · rw [if_pos hcond] at h
        rcases List.mem_cons.mp h with heq | hmem
        · have hv : v = clean_empty_content v0 := congrArg Prod.snd heq
          subst hv
          rcases Bool.and_eq_true_iff.mp hcond with ⟨ht, hor⟩
          by_cases hcont : jIsContainer v0 = true
          · rcases Bool.or_eq_true_iff.mp hor with hno | hy
            · rw [hcont] at hno; cases hno
            · exact hy
          · rw [clean_scalar v0 (Bool.not_eq_true _ ▸ hcont)]
            exact ht
        · exact ih k v hmem
      · rw [if_neg hcond] at h
        exact ih k v h
  · intro xs
    induction xs with
    | nil => intro v h; cases h
    | cons v0 t ih =>
      intro v h
      rw [cleanItems] at h
      by_cases hcond : (jTruthy v0 && (!jIsContainer v0 || jTruthy (clean_empty_content v0))) = true
      · rw [if_pos hcond] at h
        rcases List.mem_cons.mp h with heq | hmem
        · subst heq
          rcases Bool.and_eq_true_iff.mp hcond with ⟨ht, hor⟩
          by_cases hcont : jIsContainer v0 = true
          · rcases Bool.or_eq_true_iff.mp hor with hno | hy
            · rw [hcont] at hno; cases hno
            · exact hy
          · rw [clean_scalar v0 (Bool.not_eq_true _ ▸ hcont)]
            exact ht
        · exact ih v hmem
      · rw [if_neg hcond] at h
        exact ih v h

/-! ## Claim C10 -/

/-- C10: every `css_files` entry records the stylesheet link's href
exactly as it appeared in the document — possibly relative — while the
outbound fetch that produced its content used the absolutized URL. -/
theorem c10_css_files_url_is_raw_href
    (fetch : String → FetchRes) (parse : String → List Node) (url : String) (c : Content)
    (e : CssFile) (hc : extract_website_content fetch parse url = .ok c)
    (he : e ∈ c.css_files) :
    ∃ page, fetch_url fetch url = some page ∧
      e.url ∈ cssHrefs (parse page) ∧
      fetch (absolutizeHttp e.url (get_base_url url)) = .ok 200 e.content := by
  rcases extract_ok_parts fetch parse url c hc with ⟨page, hfu, _, _, hcss, _, _⟩
  refine ⟨page, hfu, ?_⟩
  rw [hcss] at he
  unfold buildCssFiles at he
  rcases List.mem_filterMap.mp he with ⟨href, hhref, hfm⟩
  by_cases h : extract_css_from_file fetch href (get_base_url url) = ""
  · rw [if_neg (by simpa using h)] at hfm
    cases hfm
  · rw [if_pos h] at hfm
    have he2 : e = ⟨href, extract_css_from_file fetch href (get_base_url url)⟩ :=
      (Option.some.injEq _ _ ▸ hfm).symm
    subst he2
    exact ⟨hhref, extract_css_from_file_ok fetch href (get_base_url url) h⟩

def c10content : Content :=
  ⟨some "", ⟨"", "", "UTF-8"⟩, [], [⟨"css/site.css", "body-css"⟩],
   [("main", "<body>x</body>")], ⟨[], [], [], [], []⟩⟩

theorem c10_css_files_url_is_raw_href_witness :
    ∃ page, fetch_url c10fetch "http://ex.com/p" = some page ∧
      ("css/site.css" : String) ∈ cssHrefs (c10parse page) ∧
      c10fetch (absolutizeHttp "css/site.css" (get_base_url "http://ex.com/p"))
        = .ok 200 "body-css" :=
  c10_css_files_url_is_raw_href c10fetch c10parse "http://ex.com/p" c10content
    ⟨"css/site.css", "body-css"⟩ (by rfl) (by simp [c10content])

/-! ## Claim C1 -/

/-- C1: with `is_small = false`, when the Heavy Path capability fails
(with any `HTTPException`, including the 504 timeout wrapper), the
orchestrator runs the Light Path once as the fallback: a successful
Light Path result is stored and returned as the response, and only a
failure of that fallback fails the whole request, with the Light
Path's own error (hello.py:544-579). -/
theorem c1_heavy_path_fallback
    (fetch : String → FetchRes) (parse : String → List Node) (gemini : String → GeminiResp)
    (e : HErr) (url html_id temp_path : String) (store : List (String × String)) :
    (∀ h, lightPath fetch parse gemini url = .ok h →
      clone_website fetch parse gemini (.error e) false url html_id temp_path store
        = .ok ⟨h, "Website cloned successfully. HTML saved to: " ++ temp_path,
               html_id, dictSet store html_id h⟩)
    ∧ (∀ e2, lightPath fetch parse gemini url = .error e2 →
      clone_website fetch parse gemini (.error e) false url html_id temp_path store
        = .error e2) := by
  constructor
  · intro h hl
    unfold clone_website
    rw [if_neg (by simp)]
    dsimp only
    rw [hl]
  · intro e2 hl
    unfold clone_website
    rw [if_neg (by simp)]
    dsimp only
    rw [hl]

theorem c1_heavy_path_fallback_witness :
    clone_website c1fetch c1parse c1gem
        (.error (.http 504 "Website took too long to load. Please try again or use a different URL."))
        false "http://a.com/" "id1" "/tmp/x.html" []
      = .ok ⟨"<!DOCTYPE html><p>hi</p>",
             "Website cloned successfully. HTML saved to: /tmp/x.html",
             "id1", [("id1", "<!DOCTYPE html><p>hi</p>")]⟩ :=
  (c1_heavy_path_fallback c1fetch c1parse c1gem
      (.http 504 "Website took too long to load. Please try again or use a different URL.")
      "http://a.com/" "id1" "/tmp/x.html" []).1
    "<!DOCTYPE html><p>hi</p>" (by rfl)

/-! ## Claim C9: lemmas about the URL resolver -/

theorem startsList_append (p t : List Char) : startsList p (p ++ t) = true := by
  induction p with
  | nil => rfl
  | cons c cs ih => simp [startsList, ih]

theorem pyStartsWith_append (p t : String) : pyStartsWith (p ++ t) p = true := by
  unfold pyStartsWith
  have hd : (p ++ t).toList = p.toList ++ t.toList := String.data_append p t
  rw [hd]
  exact startsList_append _ _

theorem schemeSplit_some_ne (l : List Char) (sc : String) (rest : List Char)
    (h : schemeSplit l = some (sc, rest)) : sc ≠ "" := by
  unfold schemeSplit at h
  cases hsp : splitAtChar ':' l with
  | none => rw [hsp] at h; cases h
  | some pr =>
    rw [hsp] at h
    obtain ⟨pre, post⟩ := pr
    dsimp only at h
    cases pre with
    | nil => cases h
    | cons p ps =>
      dsimp only at h
      by_cases hcond : (p.isAlpha && (p :: ps).all isSchemeChar) = true
      · rw [if_pos hcond] at h
        have h1 : pyLower ⟨p :: ps⟩ = sc := congrArg Prod.fst (Option.some.inj h)
        rw [← h1]
        intro h0
        have hdata := congrArg String.data h0
        simp [pyLower] at hdata
      · rw [if_neg hcond] at h
        cases h

theorem urlsplit_default_of_schemeless (r d : String)
    (h : (urlsplit r "").scheme = "") :
    urlsplit r d = ⟨d, (urlsplit r "").netloc, (urlsplit r "").path,
                    (urlsplit r "").query, (urlsplit r "").fragment⟩ := by
  have hsp : schemeSplit ((r.toList.dropWhile isC0OrSpace).filter
      (fun c => !isUnsafeUrlChar c)) = none := by
    cases hsp : schemeSplit ((r.toList.dropWhile isC0OrSpace).filter
        (fun c => !isUnsafeUrlChar c)) with
    | none => rfl
    | some pr =>
      exfalso
      obtain ⟨sc, rest⟩ := pr
      apply schemeSplit_some_ne _ sc rest hsp
      unfold urlsplit at h
      dsimp only at h
      rw [hsp] at h
      exact h
  simp only [urlsplit, hsp]

theorem urlparse_scheme_default (r d : String) (h : (urlsplit r "").scheme = "") :
    (urlparse r d).scheme = d := by
  unfold urlparse
  rw [urlsplit_default_of_schemeless r d h]
  dsimp only
  split <;> rfl

theorem urlunsplit_shape (scheme n p q f : String) (hn2 : n ≠ "") (hsch : scheme ≠ "") :
    ∃ tail, urlunsplit scheme n p q f = scheme ++ "://" ++ (n ++ tail) := by
  unfold urlunsplit
  dsimp only
  by_cases hq : q = ""
  · by_cases hf : f = ""
    · exact ⟨(if p ≠ "" && !pyStartsWith p "/" then "/" ++ p else p),
        by simp [hq, hf, hn2, hsch, String.append_assoc]; rfl⟩
    · exact ⟨(if p ≠ "" && !pyStartsWith p "/" then "/" ++ p else p) ++ "#" ++ f,
        by simp [hq, hf, hn2, hsch, String.append_assoc]; rfl⟩
  · by_cases hf : f = ""
    · exact ⟨(if p ≠ "" && !pyStartsWith p "/" then "/" ++ p else p) ++ "?" ++ q,
        by simp [hq, hf, hn2, hsch, String.append_assoc]; rfl⟩
    · exact ⟨(if p ≠ "" && !pyStartsWith p "/" then "/" ++ p else p) ++ "?" ++ q ++ "#" ++ f,
        by simp [hq, hf, hn2, hsch, String.append_assoc]; rfl⟩

theorem urlunparse_shape (pr : ParseResult) (hn2 : pr.netloc ≠ "") (hsch : pr.scheme ≠ "") :
    ∃ n tail, n ≠ "" ∧ urlunparse pr = pr.scheme ++ "://" ++ (n ++ tail) := by
  obtain ⟨tail, htail⟩ :=
    urlunsplit_shape pr.scheme pr.netloc
      (if pr.params ≠ "" then pr.path ++ ";" ++ pr.params else pr.path)
      pr.query pr.fragment hn2 hsch
  exact ⟨pr.netloc, tail, hn2, htail⟩

/-- When the reference's scheme differs from the base's (or is not a
relative-capable scheme), `urljoin` returns the reference unchanged. -/
theorem urljoin_return_url (b r : String) (hbne : b ≠ "") (hre : r ≠ "")
    (hC : (urlparse r (urlparse b "").scheme).scheme ≠ (urlparse b "").scheme
        ∨ usesRelative.contains (urlparse r (urlparse b "").scheme).scheme = false) :
    urljoin b r = r := by
  have hcond : ((urlparse r (urlparse b "").scheme).scheme ≠ (urlparse b "").scheme
      || !usesRelative.contains (urlparse r (urlparse b "").scheme).scheme) = true := by
    rcases hC with h | h
    · simp [h]
    · rw [h]; simp
  unfold urljoin
  rw [if_neg hbne, if_neg hre]
  dsimp only
  rw [if_pos hcond]

/-- When the reference parses with the base's (http/https) scheme,
`urljoin` produces `scheme://<nonempty netloc><tail>`. -/
theorem urljoin_base_host (b scheme netloc r : String)
    (hb : urlparse b "" = ⟨scheme, netloc, "", "", "", ""⟩)
    (hs : scheme = "http" ∨ scheme = "https")
    (hn : netloc ≠ "") (hbne : b ≠ "") (hre : r ≠ "")
    (hmatch : (urlparse r scheme).scheme = scheme) :
    ∃ n tail, n ≠ "" ∧ urljoin b r = scheme ++ "://" ++ (n ++ tail) := by
  have hrel : usesRelative.contains scheme = true := by rcases hs with rfl | rfl <;> rfl
  have hnet : usesNetloc.contains scheme = true := by rcases hs with rfl | rfl <;> rfl
  have hsne : scheme ≠ "" := by rcases hs with rfl | rfl <;> simp
  have hcond : ((scheme ≠ scheme) || !usesRelative.contains scheme) = false := by
    rw [hrel]; simp
  unfold urljoin
  rw [if_neg hbne, if_neg hre]
  dsimp only
  rw [hb]
  dsimp only
  rw [hmatch]
  rw [if_neg (by rw [hcond]; decide)]
  rw [hnet]
  by_cases hun : (urlparse r scheme).netloc = ""
  · rw [if_neg (by simp [hun])]
    split
    · exact urlunparse_shape _ hn hsne
    · exact urlunparse_shape _ hn hsne
  · rw [if_pos (by simp [hun])]
    exact urlunparse_shape _ hun hsne

/-- C9 counterexample: absolutizing a `data:` URI (a resource reference
that does occur in `<img src>`) leaves it unchanged — idempotence holds,
but the result has NO host (empty netloc), refuting "yields a URL with
a scheme and host" for every reference. -/
theorem c9_counterexample :
    absolutizeHttp "data:image/png;base64,AA" "https://ex.com" = "data:image/png;base64,AA"
    ∧ (urlsplit "data:image/png;base64,AA" "").netloc = ""
    ∧ (urlsplit "data:image/png;base64,AA" "").scheme = "data"
    ∧ absolutizeHttp (absolutizeHttp "data:image/png;base64,AA" "https://ex.com") "https://ex.com"
        = absolutizeHttp "data:image/png;base64,AA" "https://ex.com" :=
  ⟨by rfl, by rfl, by rfl, by rfl⟩

/-- C9 (amended): over bases of the exact shape `get_base_url` produces
(`scheme://netloc` with an http(s) scheme and non-empty netloc, parsed
accordingly), absolutization is idempotent for every reference, an
already http(s)-absolute reference is returned unchanged, and a
reference with NO scheme gains the base's scheme and a non-empty host;
references carrying a different scheme (`data:`, `mailto:`, ...) pass
through unchanged and need not have a host.  References are restricted
to bracket-free strings because CPython raises `ValueError` on
unbalanced IPv6 brackets, which the embedding does not model. -/
theorem c9_absolutize_props
    (r b scheme netloc : String)
    (hbtext : b = scheme ++ "://" ++ netloc)
    (hb : urlparse b "" = ⟨scheme, netloc, "", "", "", ""⟩)
    (hs : scheme = "http" ∨ scheme = "https")
    (hn : netloc ≠ "")
    (hbr : containsSub r "[" = false ∧ containsSub r "]" = false) :
    ((pyStartsWith r "http://" || pyStartsWith r "https://") = true → absolutizeHttp r b = r)
    ∧ absolutizeHttp (absolutizeHttp r b) b = absolutizeHttp r b
    ∧ ((urlsplit r "").scheme = "" →
        (pyStartsWith r "http://" || pyStartsWith r "https://") = false →
        ∃ n tail, n ≠ "" ∧ absolutizeHttp r b = scheme ++ "://" ++ (n ++ tail)) := by
  have hbne : b ≠ "" := by
    rw [hbtext]
    intro h0
    have hl := congrArg String.length h0
    simp only [String.length_append] at hl
    have h3 : ("://" : String).length = 3 := rfl
    have h0l : ("" : String).length = 0 := rfl
    omega
  have habspre : ∀ n2 tail2, (pyStartsWith (scheme ++ "://" ++ (n2 ++ tail2)) "http://"
      || pyStartsWith (scheme ++ "://" ++ (n2 ++ tail2)) "https://") = true := by
    intro n2 tail2
    rcases hs with rfl | rfl
    · have he : ("http" : String) ++ "://" ++ (n2 ++ tail2) = "http://" ++ (n2 ++ tail2) := rfl
      rw [he]
      simp [pyStartsWith_append]
    · have he : ("https" : String) ++ "://" ++ (n2 ++ tail2) = "https://" ++ (n2 ++ tail2) := rfl
      rw [he]
      simp [pyStartsWith_append]
  refine ⟨?_, ?_, ?_⟩
  · intro hr
    unfold absolutizeHttp
    rw [if_pos hr]
  · by_cases hr : (pyStartsWith r "http://" || pyStartsWith r "https://") = true
    · have h1 : absolutizeHttp r b = r := by unfold absolutizeHttp; rw [if_pos hr]
      rw [h1]
      exact h1
    · have h1 : absolutizeHttp r b = urljoin b r := by unfold absolutizeHttp; rw [if_neg hr]
      rw [h1]
      by_cases hre : r = ""
      · subst hre
        have hj : urljoin b "" = b := by
          unfold urljoin
          rw [if_neg hbne, if_pos rfl]
        rw [hj]
        have hpre : (pyStartsWith b "http://" || pyStartsWith b "https://") = true := by
          rcases hs with rfl | rfl
          · have he : b = "http://" ++ netloc := by rw [hbtext]; rfl
            rw [he]
            simp [pyStartsWith_append]
          · have he : b = "https://" ++ netloc := by rw [hbtext]; rfl
            rw [he]
            simp [pyStartsWith_append]
        unfold absolutizeHttp
        rw [if_pos hpre]
      · by_cases hsch : (urlparse r scheme).scheme = scheme
        · obtain ⟨n, tail, hne, hj⟩ :=
            urljoin_base_host b scheme netloc r hb hs hn hbne hre hsch
          rw [hj]
          unfold absolutizeHttp
          rw [if_pos (habspre n tail)]
        · have hC : (urlparse r (urlparse b "").scheme).scheme ≠ (urlparse b "").scheme
              ∨ usesRelative.contains (urlparse r (urlparse b "").scheme).scheme = false := by
            left
            rw [hb]
            exact hsch
          have hj : urljoin b r = r := urljoin_return_url b r hbne hre hC
          rw [hj]
          unfold absolutizeHttp
          rw [if_neg hr]
          exact hj
  · intro hnos hr0
    have h1 : absolutizeHttp r b = urljoin b r := by
      unfold absolutizeHttp
      rw [if_neg (by intro hcc; rw [hcc] at hr0; simp at hr0)]
    by_cases hre : r = ""
    · subst hre
      have hj : urljoin b "" = b := by
        unfold urljoin
        rw [if_neg hbne, if_pos rfl]
      refine ⟨netloc, "", hn, ?_⟩
      rw [h1, hj, hbtext]
      simp
    · obtain ⟨n, tail, hne, hj⟩ :=
        urljoin_base_host b scheme netloc r hb hs hn hbne hre
          (urlparse_scheme_default r scheme hnos)
      exact ⟨n, tail, hne, by rw [h1, hj]⟩

theorem c9_absolutize_props_witness :
    absolutizeHttp "http://other.com/z" "https://ex.com" = "http://other.com/z"
    ∧ absolutizeHttp (absolutizeHttp "css/site.css" "https://ex.com") "https://ex.com"
        = absolutizeHttp "css/site.css" "https://ex.com"
    ∧ (∃ n tail, n ≠ "" ∧ absolutizeHttp "css/site.css" "https://ex.com"
        = "https" ++ "://" ++ (n ++ tail)) :=
  ⟨(c9_absolutize_props "http://other.com/z" "https://ex.com" "https" "ex.com"
      rfl (by rfl) (Or.inr rfl) (by decide) ⟨by decide, by decide⟩).1 (by decide),
   (c9_absolutize_props "css/site.css" "https://ex.com" "https" "ex.com"
      rfl (by rfl) (Or.inr rfl) (by decide) ⟨by decide, by decide⟩).2.1,
   (c9_absolutize_props "css/site.css" "https://ex.com" "https" "ex.com"
      rfl (by rfl) (Or.inr rfl) (by decide) ⟨by decide, by decide⟩).2.2 (by rfl) (by decide)⟩

end WebsiteExtracter
